import Mathlib

/-!
Shallow embedding of the request-forwarding module of the load balancer
(`RequestForwarder`: `methodSupportsBody`, `bufferRequestBody`,
`forwardRequest`, `forwardRequestWithRetry`, `forwardRequestSimple`).

Modelling choices:
* The hosting environment's primitives are opaque values: a request carries a
  method, the components of its parsed URL, headers, and an optional
  once-readable body stream whose single read yields either bytes or a failure
  cause. The raw network transport (`fetch`) is a black box, modelled as a
  function from the call's arguments to a result; forwarding functions return,
  besides their result, the list of transport calls they issued, so that
  "exactly one call" and "no internal retry" are provable facts.
* Effect's `Schedule.exponential(initialDelay, factor)` yields delays
  `initialDelay * factor^n` for recurrence n = 0, 1, 2, ...;
  `Schedule.intersect (Schedule.recurs maxRetries)` keeps those delays (the
  intersection takes the maximum delay, and `recurs` has zero delay) and stops
  after `maxRetries` recurrences. `Effect.retry` re-runs the effect after each
  delay while the schedule continues, and surfaces the last error otherwise.
  Durations are exact rational numbers of milliseconds.
-/

/-- An opaque failure cause (the thrown value caught by `Effect.tryPromise`). -/
abbrev Cause := String

/-- An upstream HTTP response; its content is opaque to the forwarder. -/
structure Response where
  status : Nat
  body : List Nat
deriving DecidableEq, Repr

/-- Endpoint configuration: `url`, `healthCheckPath`, `weight`, `timeoutMs`. -/
structure Endpoint where
  url : String
  healthCheckPath : String
  weight : Nat
  timeoutMs : Nat
deriving DecidableEq, Repr

/-- The endpoint value stored in a `RequestForwardError`: `forwardRequest`
stores the full endpoint, while `bufferRequestBody` stores the object
`\x7b url: request.url \x7d as Endpoint`, which materialises only a URL. -/
inductive ErrorEndpoint where
  | full (e : Endpoint)
  | urlOnly (url : String)
deriving DecidableEq, Repr

/-- `RequestForwardError` — transport or body-read failure, carrying the
endpoint attempted and the underlying cause. -/
structure RequestForwardError where
  endpoint : ErrorEndpoint
  cause : Cause
deriving DecidableEq, Repr

/-- Components of `new URL(request.url)`: URL parsing is a hosting-environment
primitive, represented by its results (`href` is the original string). -/
structure RequestURL where
  href : String
  pathname : String
  search : String
deriving DecidableEq, Repr

/-- The outcome of the single permitted read of a request's body stream
(`request.arrayBuffer()`): either the buffered bytes or a rejection cause. -/
inductive BodyRead where
  | bytes (bs : List Nat)
  | failed (cause : Cause)
deriving DecidableEq, Repr

/-- An inbound request: method, parsed URL, headers, and an optional body
stream. `body = none` models an absent body; `body = some r` models a present
once-readable stream whose single read yields `r`. -/
structure Request where
  method : String
  url : RequestURL
  headers : List (String × String)
  body : Option BodyRead
deriving DecidableEq, Repr

/-- Uppercase an ASCII letter, leaving every other character unchanged; the
character-level action of the hosting environment's `toUpperCase()`. -/
def upperAscii (c : Char) : Char :=
  if 97 ≤ c.toNat ∧ c.toNat ≤ 122 then Char.ofNat (c.toNat - 32) else c

/-- The hosting environment's `method.toUpperCase()`, modelled as ASCII
uppercasing of each character (HTTP method names are ASCII). -/
def toUpperCase (s : String) : String :=
  ⟨s.data.map upperAscii⟩

/-- HTTP methods that should NOT have a body (`BODYLESS_METHODS`). -/
def BODYLESS_METHODS : List String := ["GET", "HEAD", "OPTIONS"]

/-- Check if a method should have a body (`methodSupportsBody`); the source
upper-cases the method and tests membership in `BODYLESS_METHODS`. -/
def methodSupportsBody (method : String) : Bool :=
  ! BODYLESS_METHODS.contains (toUpperCase method)

/-- Buffered body type: bytes for methods that support a body, or null. -/
abbrev BufferedBody := Option (List Nat)

instance {ε α : Type} [DecidableEq ε] [DecidableEq α] :
    DecidableEq (Except ε α) := fun x y =>
  match x, y with
  | .ok a, .ok b => decidable_of_iff (a = b) (by simp)
  | .error a, .error b => decidable_of_iff (a = b) (by simp)
  | .ok _, .error _ => isFalse (by simp)
  | .error _, .ok _ => isFalse (by simp)

/-- `bufferRequestBody`: returns null for bodyless methods or an absent body,
otherwise reads the body stream once into memory; a read failure becomes a
`RequestForwardError` whose endpoint is the url-only cast. The second
component counts the body-stream reads performed. -/
def bufferRequestBody (request : Request) :
    Except RequestForwardError BufferedBody × Nat :=
  if ! methodSupportsBody request.method then
    (.ok none, 0)
  else
    match request.body with
    | none => (.ok none, 0)
    | some (.bytes bs) => (.ok (some bs), 1)
    | some (.failed cause) =>
        (.error ⟨.urlOnly request.url.href, cause⟩, 1)

/-- Modelled from the spec: `Endpoint.buildTargetUrl` is defined in the
`Endpoint` module, which is not among the available sources; per the spec the
target URL is rewritten to `endpoint.url` + original pathname + original
query string. -/
def Endpoint.buildTargetUrl (e : Endpoint) (pathname search : String) : String :=
  e.url ++ pathname ++ search

/-- The arguments of one `fetch` call: target URL, and the method, headers,
body, redirect mode and timeout passed in its init object. -/
structure FetchArgs where
  url : String
  method : String
  headers : List (String × String)
  body : BufferedBody
  redirect : String
  timeoutMs : Nat
deriving DecidableEq, Repr

/-- The raw network transport: a black box taking one fetch call's arguments
to a response or a failure cause (network error, timeout, abort). -/
abbrev Transport := FetchArgs → Except Cause Response

/-- The fetch call `forwardRequest` builds: target URL from
`endpoint.buildTargetUrl(url.pathname, url.search)`; method and headers from
the request verbatim; body equal to `bufferedBody` for body-capable methods
and null otherwise; `redirect: "follow"`; deadline
`AbortSignal.timeout(endpoint.timeoutMs)`. -/
def fetchArgsFor (endpoint : Endpoint) (request : Request)
    (bufferedBody : BufferedBody) : FetchArgs :=
  { url := endpoint.buildTargetUrl request.url.pathname request.url.search
    method := request.method
    headers := request.headers
    body := if methodSupportsBody request.method then bufferedBody else none
    redirect := "follow"
    timeoutMs := endpoint.timeoutMs }

/-- `forwardRequest`: one fetch call against the endpoint; a transport failure
surfaces as `RequestForwardError \x7b endpoint, cause \x7d`. Besides the
result, the list of fetch calls issued is returned. -/
def forwardRequest (transport : Transport) (endpoint : Endpoint)
    (request : Request) (bufferedBody : BufferedBody) :
    Except RequestForwardError Response × List FetchArgs :=
  let args := fetchArgsFor endpoint request bufferedBody
  match transport args with
  | .ok response => (.ok response, [args])
  | .error cause => (.error ⟨.full endpoint, cause⟩, [args])

/-- Retry policy options (`RetryOptions`); `maxRetries` is an integer so that
the source's `(retryOptions.maxRetries ?? 0) <= 0` test is represented
faithfully, and durations are exact rational milliseconds. -/
structure RetryOptions where
  maxRetries : Option Int
  initialDelay : Option ℚ
  maxDelay : Option ℚ
  factor : Option ℚ
deriving DecidableEq, Repr

/-- Delay of Effect's `Schedule.exponential(initialDelay, factor)` at
recurrence `n` (0-indexed): `initialDelay * factor ^ n`. Intersecting with
`Schedule.recurs(maxRetries)` keeps these delays, since the intersection
waits for the maximum of the two delays and `recurs` has zero delay. -/
def exponentialDelay (initialDelay factor : ℚ) (n : Nat) : ℚ :=
  initialDelay * factor ^ n

/-- The loop of `Effect.retry`: run attempt `i`; on success stop; on failure,
if retries remain, sleep the schedule's delay for the current recurrence and
retry. Returns the final result and the list of delays slept, in order; the
number of attempts performed is the number of delays plus one. -/
def retryRun (attempt : Nat → Except RequestForwardError Response)
    (delay : Nat → ℚ) (i : Nat) :
    Nat → Except RequestForwardError Response × List ℚ
  | 0 => (attempt i, [])
  | remaining + 1 =>
    match attempt i with
    | .ok response => (.ok response, [])
    | .error _ =>
      let rest := retryRun attempt delay (i + 1) remaining
      (rest.1, delay i :: rest.2)

/-- Number of retries the source's guard admits: none unless a policy is
present with `maxRetries > 0` (the source tests
`!retryOptions || (retryOptions.maxRetries ?? 0) <= 0`). -/
def allowedRetries (retryOptions : Option RetryOptions) : Nat :=
  match retryOptions with
  | none => 0
  | some opts =>
    if opts.maxRetries.getD 0 ≤ 0 then 0 else (opts.maxRetries.getD 0).toNat

/-- `forwardRequestWithRetry`: `forwardRequest` wrapped in
`Effect.retry(Schedule.exponential(initialDelay, factor).pipe(Schedule.intersect(Schedule.recurs(maxRetries))))`
when a policy with positive `maxRetries` is given, and unchanged otherwise.
`transports i` is the transport's behaviour on the `i`-th attempt. Defaults
follow the source's destructuring: `initialDelay` 100 ms, `factor` 2; the
source never reads `maxDelay`. Returns the result and the delays slept. -/
def forwardRequestWithRetry (transports : Nat → Transport)
    (endpoint : Endpoint) (request : Request) (bufferedBody : BufferedBody)
    (retryOptions : Option RetryOptions) :
    Except RequestForwardError Response × List ℚ :=
  let attempt : Nat → Except RequestForwardError Response := fun i =>
    (forwardRequest (transports i) endpoint request bufferedBody).1
  match retryOptions with
  | none => (attempt 0, [])
  | some opts =>
    if opts.maxRetries.getD 0 ≤ 0 then
      (attempt 0, [])
    else
      retryRun attempt
        (exponentialDelay (opts.initialDelay.getD 100) (opts.factor.getD 2))
        0 (opts.maxRetries.getD 0).toNat

/-- True when an attempt's result is a `RequestForwardError`. -/
def isFailure (r : Except RequestForwardError Response) : Bool :=
  match r with
  | .ok _ => false
  | .error _ => true

/-- `forwardRequestSimple`: buffers the body, then forwards. Returns the
result, the fetch calls issued, and the body-stream reads performed. -/
def forwardRequestSimple (transport : Transport) (endpoint : Endpoint)
    (request : Request) :
    Except RequestForwardError Response × List FetchArgs × Nat :=
  let buffered := bufferRequestBody request
  match buffered.1 with
  | .error err => (.error err, [], buffered.2)
  | .ok b =>
    let fwd := forwardRequest transport endpoint request b
    (fwd.1, fwd.2, buffered.2)

/-! Sample data used by witnesses and counterexample evaluations. -/

/-- A sample endpoint. -/
def epA : Endpoint := ⟨"http://localhost:3000", "/health", 1, 5000⟩

/-- A sample GET request with a (spurious) body stream. -/
def reqGet : Request :=
  ⟨"GET", ⟨"http://lb/api/data?x=1", "/api/data", "?x=1"⟩,
    [("authorization", "Bearer t")], some (.bytes [9])⟩

/-- A sample POST request with a readable body. -/
def reqPost : Request :=
  ⟨"POST", ⟨"http://lb/api/echo", "/api/echo", ""⟩,
    [("content-type", "application/json")], some (.bytes [1, 2, 3])⟩

/-- A sample POST request whose body stream read rejects. -/
def reqPostBad : Request :=
  ⟨"POST", ⟨"http://lb/api/echo", "/api/echo", ""⟩, [], some (.failed "read")⟩

/-- A transport that succeeds with a fixed 200 response. -/
def okTransport : Transport := fun _ => .ok ⟨200, [42]⟩

/-- A transport that always fails with a network error. -/
def failTransport : Transport := fun _ => .error "network error"

/-- Attempt family that fails on every attempt. -/
def alwaysFail : Nat → Transport := fun _ => failTransport

/-- Attempt family that fails twice, then succeeds. -/
def failTwice : Nat → Transport := fun i =>
  if i < 2 then failTransport else okTransport

/-! Helper lemmas about the retry loop. -/

lemma retryRun_zero (attempt : Nat → Except RequestForwardError Response)
    (delay : Nat → ℚ) (i : Nat) :
    retryRun attempt delay i 0 = (attempt i, []) := rfl

lemma retryRun_succ (attempt : Nat → Except RequestForwardError Response)
    (delay : Nat → ℚ) (i m : Nat) :
    retryRun attempt delay i (m + 1) =
      match attempt i with
      | .ok response => (.ok response, [])
      | .error _ =>
        ((retryRun attempt delay (i + 1) m).1,
          delay i :: (retryRun attempt delay (i + 1) m).2) := rfl

lemma retryRun_length_le (attempt : Nat → Except RequestForwardError Response)
    (delay : Nat → ℚ) :
    ∀ n i, (retryRun attempt delay i n).2.length ≤ n := by
  intro n
  induction n with
  | zero => intro i; simp [retryRun_zero]
  | succ m ih =>
    intro i
    rw [retryRun_succ]
    cases hA : attempt i with
    | ok v => simp
    | error e => simpa using ih (i + 1)

lemma retryRun_all_fail (attempt : Nat → Except RequestForwardError Response)
    (delay : Nat → ℚ) :
    ∀ n i, (∀ j, j ≤ n → isFailure (attempt (i + j)) = true) →
      retryRun attempt delay i n =
        (attempt (i + n), (List.range n).map fun j => delay (i + j)) := by
  intro n
  induction n with
  | zero => intro i _; simp [retryRun_zero]
  | succ m ih =>
    intro i h
    have h0 : isFailure (attempt i) = true := by
      simpa using h 0 (Nat.zero_le _)
    rw [retryRun_succ]
    cases hA : attempt i with
    | ok v => rw [hA] at h0; simp [isFailure] at h0
    | error e =>
      have hrest := ih (i + 1) (fun j hj => by
        have hx := h (j + 1) (by omega)
        have harith : i + (j + 1) = i + 1 + j := by omega
        rwa [harith] at hx)
      rw [hrest]
      have harith : i + 1 + m = i + (m + 1) := by omega
      rw [harith]
      have hdelays : delay i :: ((List.range m).map fun j => delay (i + 1 + j)) =
          (List.range (m + 1)).map fun j => delay (i + j) := by
        rw [List.range_succ_eq_map, List.map_cons, List.map_map]
        have : (fun j => delay (i + j)) ∘ Nat.succ = fun j => delay (i + 1 + j) := by
          funext j
          have : i + Nat.succ j = i + 1 + j := by omega
          simp [Function.comp, this]
        simp [this]
      rw [← hdelays]

lemma retryRun_first_success (attempt : Nat → Except RequestForwardError Response)
    (delay : Nat → ℚ) :
    ∀ k n i v, k ≤ n →
      (∀ j, j < k → isFailure (attempt (i + j)) = true) →
      attempt (i + k) = .ok v →
      retryRun attempt delay i n =
        (.ok v, (List.range k).map fun j => delay (i + j)) := by
  intro k
  induction k with
  | zero =>
    intro n i v _ _ hok
    rw [Nat.add_zero] at hok
    cases n with
    | zero => simp [retryRun_zero, hok]
    | succ m => rw [retryRun_succ, hok]; simp
  | succ l ih =>
    intro n i v hkn hfail hok
    cases n with
    | zero => omega
    | succ m =>
      have h0 : isFailure (attempt i) = true := by
        simpa using hfail 0 (by omega)
      rw [retryRun_succ]
      cases hA : attempt i with
      | ok w => rw [hA] at h0; simp [isFailure] at h0
      | error e =>
        have hrest := ih m (i + 1) v (by omega)
          (fun j hj => by
            have hx := hfail (j + 1) (by omega)
            have harith : i + (j + 1) = i + 1 + j := by omega
            rwa [harith] at hx)
          (by
            have harith : i + 1 + l = i + (l + 1) := by omega
            rwa [harith])
        rw [hrest]
        have hdelays : delay i :: ((List.range l).map fun j => delay (i + 1 + j)) =
            (List.range (l + 1)).map fun j => delay (i + j) := by
          rw [List.range_succ_eq_map, List.map_cons, List.map_map]
          have : (fun j => delay (i + j)) ∘ Nat.succ = fun j => delay (i + 1 + j) := by
            funext j
            have : i + Nat.succ j = i + 1 + j := by omega
            simp [Function.comp, this]
          simp [this]
        rw [← hdelays]

lemma forwardRequestWithRetry_no_policy (ts : Nat → Transport) (e : Endpoint)
    (r : Request) (b : BufferedBody) :
    forwardRequestWithRetry ts e r b none =
      ((forwardRequest (ts 0) e r b).1, []) := rfl

lemma forwardRequestWithRetry_nonpos (ts : Nat → Transport) (e : Endpoint)
    (r : Request) (b : BufferedBody) (o : RetryOptions)
    (h : o.maxRetries.getD 0 ≤ 0) :
    forwardRequestWithRetry ts e r b (some o) =
      ((forwardRequest (ts 0) e r b).1, []) := by
  simp [forwardRequestWithRetry, h]

lemma forwardRequestWithRetry_pos (ts : Nat → Transport) (e : Endpoint)
    (r : Request) (b : BufferedBody) (o : RetryOptions)
    (h : 0 < o.maxRetries.getD 0) :
    forwardRequestWithRetry ts e r b (some o) =
      retryRun (fun i => (forwardRequest (ts i) e r b).1)
        (exponentialDelay (o.initialDelay.getD 100) (o.factor.getD 2)) 0
        (o.maxRetries.getD 0).toNat := by
  have h2 : ¬ o.maxRetries.getD 0 ≤ 0 := by omega
  simp [forwardRequestWithRetry, h2]

lemma allowedRetries_none : allowedRetries none = 0 := rfl

lemma allowedRetries_nonpos (o : RetryOptions) (h : o.maxRetries.getD 0 ≤ 0) :
    allowedRetries (some o) = 0 := by
  simp [allowedRetries, h]

lemma allowedRetries_pos (o : RetryOptions) (h : 0 < o.maxRetries.getD 0) :
    allowedRetries (some o) = (o.maxRetries.getD 0).toNat := by
  have h2 : ¬ o.maxRetries.getD 0 ≤ 0 := by omega
  simp [allowedRetries, h2]

/-- C2: for every endpoint, request and buffered body,
`forwardRequestWithRetry` performs at most `maxRetries` attempts beyond the
first (each extra attempt is preceded by exactly one backoff delay, so the
delay list's length counts the retries); when `retryOptions` is absent, or
its `maxRetries` is absent or ≤ 0, it performs exactly one attempt — the
plain `forwardRequest` — with no retry and no delay. -/
theorem forwardRequestWithRetry_attempt_bound
    (ts : Nat → Transport) (e : Endpoint) (r : Request) (b : BufferedBody)
    (opts : Option RetryOptions) :
    (forwardRequestWithRetry ts e r b opts).2.length ≤ allowedRetries opts ∧
    ((opts = none ∨ ∃ o, opts = some o ∧ o.maxRetries.getD 0 ≤ 0) →
      forwardRequestWithRetry ts e r b opts =
        ((forwardRequest (ts 0) e r b).1, [])) := by
  constructor
  · match opts with
    | none => simp [forwardRequestWithRetry_no_policy]
    | some o =>
      by_cases h : o.maxRetries.getD 0 ≤ 0
      · simp [forwardRequestWithRetry_nonpos ts e r b o h]
      · rw [forwardRequestWithRetry_pos ts e r b o (by omega),
          allowedRetries_pos o (by omega)]
        exact retryRun_length_le _ _ _ _
  · rintro (rfl | ⟨o, rfl, ho⟩)
    · rfl
    · exact forwardRequestWithRetry_nonpos ts e r b o ho

/-- Witness for C2: with no retry policy, a single failing attempt is
performed and its error returned with no delays. -/
theorem forwardRequestWithRetry_attempt_bound_witness :
    forwardRequestWithRetry alwaysFail epA reqPost (some [1, 2, 3]) none =
      ((forwardRequest (alwaysFail 0) epA reqPost (some [1, 2, 3])).1, []) :=
  (forwardRequestWithRetry_attempt_bound alwaysFail epA reqPost
    (some [1, 2, 3]) none).2 (Or.inl rfl)

/-- C4: for every retry policy, `forwardRequestWithRetry` returns the
response of the first successful attempt and makes no further attempts after
it (the number of delays slept equals the index of the first successful
attempt, so it was the last attempt performed); and if every available
attempt fails, it fails with the `RequestForwardError` of the last attempt. -/
theorem forwardRequestWithRetry_first_success_spec
    (ts : Nat → Transport) (e : Endpoint) (r : Request) (b : BufferedBody)
    (opts : Option RetryOptions) :
    (∀ k v, k ≤ allowedRetries opts →
      (∀ j, j < k → isFailure ((forwardRequest (ts j) e r b).1) = true) →
      (forwardRequest (ts k) e r b).1 = .ok v →
      (forwardRequestWithRetry ts e r b opts).1 = .ok v ∧
        (forwardRequestWithRetry ts e r b opts).2.length = k) ∧
    ((∀ j, j ≤ allowedRetries opts →
        isFailure ((forwardRequest (ts j) e r b).1) = true) →
      (forwardRequestWithRetry ts e r b opts).1 =
        (forwardRequest (ts (allowedRetries opts)) e r b).1) := by
  match opts with
  | none =>
    rw [allowedRetries_none]
    constructor
    · intro k v hk _ hok
      interval_cases k
      rw [forwardRequestWithRetry_no_policy]
      exact ⟨hok, rfl⟩
    · intro h
      rw [forwardRequestWithRetry_no_policy]
  | some o =>
    by_cases h : o.maxRetries.getD 0 ≤ 0
    · rw [allowedRetries_nonpos o h]
      constructor
      · intro k v hk _ hok
        interval_cases k
        rw [forwardRequestWithRetry_nonpos ts e r b o h]
        exact ⟨hok, rfl⟩
      · intro _
        rw [forwardRequestWithRetry_nonpos ts e r b o h]
    · rw [allowedRetries_pos o (by omega)]
      rw [forwardRequestWithRetry_pos ts e r b o (by omega)]
      constructor
      · intro k v hk hfail hok
        rw [retryRun_first_success _ _ k _ 0 v hk
          (fun j hj => by simpa using hfail j hj) (by simpa using hok)]
        simp
      · intro hall
        rw [retryRun_all_fail _ _ _ 0
          (fun j hj => by simpa using hall j hj)]
        simp

/-- Witness for C4: with two failures then a success under a policy allowing
two retries, the third attempt's response is returned after exactly two
delays. -/
theorem forwardRequestWithRetry_first_success_witness :
    (forwardRequestWithRetry failTwice epA reqPost (some [1, 2, 3])
        (some ⟨some 2, some 100, none, none⟩)).1 = .ok ⟨200, [42]⟩ ∧
      (forwardRequestWithRetry failTwice epA reqPost (some [1, 2, 3])
        (some ⟨some 2, some 100, none, none⟩)).2.length = 2 :=
  (forwardRequestWithRetry_first_success_spec failTwice epA reqPost
    (some [1, 2, 3]) (some ⟨some 2, some 100, none, none⟩)).1 2 ⟨200, [42]⟩
    (by decide)
    (fun j hj => by interval_cases j <;> decide)
    (by decide)

/-- C5: `forwardRequest` performs exactly one transport call (its call trace
is a single fetch) whose deadline equals `endpoint.timeoutMs`; a transport
failure surfaces as a `RequestForwardError` carrying that endpoint and the
underlying cause, a transport success is returned as-is, and no retry happens
internally (the trace is one call whatever the outcome). -/
theorem forwardRequest_single_attempt (transport : Transport) (e : Endpoint)
    (r : Request) (b : BufferedBody) :
    (forwardRequest transport e r b).2 = [fetchArgsFor e r b] ∧
    (fetchArgsFor e r b).timeoutMs = e.timeoutMs ∧
    (∀ c, transport (fetchArgsFor e r b) = .error c →
      (forwardRequest transport e r b).1 = .error ⟨.full e, c⟩) ∧
    (∀ resp, transport (fetchArgsFor e r b) = .ok resp →
      (forwardRequest transport e r b).1 = .ok resp) := by
  cases h : transport (fetchArgsFor e r b) with
  | ok resp =>
    refine ⟨by simp [forwardRequest, h], rfl, ?_, ?_⟩
    · intro c hc
      exact absurd hc (by simp)
    · intro resp2 hr
      simp only [Except.ok.injEq] at hr
      subst hr
      simp [forwardRequest, h]
  | error c =>
    refine ⟨by simp [forwardRequest, h], rfl, ?_, ?_⟩
    · intro c2 hc
      simp only [Except.error.injEq] at hc
      subst hc
      simp [forwardRequest, h]
    · intro resp hr
      exact absurd hr (by simp)

/-- Witness for C5: a failing transport call surfaces as a
`RequestForwardError` carrying the endpoint and the cause. -/
theorem forwardRequest_single_attempt_witness :
    (forwardRequest failTransport epA reqPost (some [1, 2, 3])).1 =
      .error ⟨.full epA, "network error"⟩ :=
  (forwardRequest_single_attempt failTransport epA reqPost
    (some [1, 2, 3])).2.2.1 "network error" rfl

/-- C6: the single fetch call `forwardRequest` issues targets
`endpoint.buildTargetUrl(pathname, search)` = `endpoint.url` + original
pathname + original query string, with the original method and headers copied
verbatim and redirects followed. -/
theorem forwardRequest_target (transport : Transport) (e : Endpoint)
    (r : Request) (b : BufferedBody) :
    (forwardRequest transport e r b).2 = [fetchArgsFor e r b] ∧
    (fetchArgsFor e r b).url = e.buildTargetUrl r.url.pathname r.url.search ∧
    e.buildTargetUrl r.url.pathname r.url.search =
      e.url ++ r.url.pathname ++ r.url.search ∧
    (fetchArgsFor e r b).method = r.method ∧
    (fetchArgsFor e r b).headers = r.headers ∧
    (fetchArgsFor e r b).redirect = "follow" := by
  refine ⟨?_, rfl, rfl, rfl, rfl, rfl⟩
  cases h : transport (fetchArgsFor e r b) <;> simp [forwardRequest, h]

/-- C7: the fetch call's body is the buffered body exactly when the request's
method is body-capable, and null otherwise — for GET, HEAD and OPTIONS the
body sent is null even when a non-null buffered body is supplied. -/
theorem forwardRequest_body_gating (e : Endpoint) (r : Request)
    (b : BufferedBody) :
    ((fetchArgsFor e r b).body =
      if methodSupportsBody r.method then b else none) ∧
    (methodSupportsBody r.method = true → (fetchArgsFor e r b).body = b) ∧
    (methodSupportsBody r.method = false →
      (fetchArgsFor e r b).body = none) := by
  refine ⟨rfl, ?_, ?_⟩ <;> intro h <;> simp [fetchArgsFor, h]

/-- Witness for C7: a GET request with a non-null buffered body still sends a
null body upstream. -/
theorem forwardRequest_body_gating_witness :
    (fetchArgsFor epA reqGet (some [9])).body = none :=
  (forwardRequest_body_gating epA reqGet (some [9])).2.2 (by decide)

/-- C1 (counterexample to the claimed `maxDelay` cap): under the policy
maxRetries = 2, initialDelay = 100 ms, maxDelay = 150 ms, factor = 2, with
every attempt failing, the backoff delays produced are 100 ms then 200 ms:
the delay before the second retry is 200 ms although the claimed value is
min(100·2^1, 150) = 150 ms — the source never reads `maxDelay`. -/
theorem forwardRequestWithRetry_ignores_maxDelay :
    (forwardRequestWithRetry alwaysFail epA reqGet none
      (some ⟨some 2, some 100, some 150, some 2⟩)).2 = [100, 200] ∧
    min ((100 : ℚ) * 2 ^ (2 - 1)) 150 = 150 ∧ ((200 : ℚ) ≠ 150) := by
  refine ⟨?_, by norm_num, by norm_num⟩
  norm_num [forwardRequestWithRetry, retryRun, exponentialDelay,
    forwardRequest, alwaysFail, failTransport]

/-- C10: `methodSupportsBody` is false exactly when the uppercase form of the
method is GET, HEAD or OPTIONS; it depends on the method only through its
uppercase form, so it is invariant under letter case — in particular "get"
and "GET" are both bodyless. -/
theorem methodSupportsBody_bodyless_iff :
    (∀ m : String, methodSupportsBody m = false ↔
      toUpperCase m ∈ BODYLESS_METHODS) ∧
    (∀ m₁ m₂ : String, toUpperCase m₁ = toUpperCase m₂ →
      methodSupportsBody m₁ = methodSupportsBody m₂) ∧
    methodSupportsBody "get" = false ∧ methodSupportsBody "GET" = false := by
  refine ⟨?_, ?_, by decide, by decide⟩
  · intro m
    simp [methodSupportsBody]
  · intro m₁ m₂ h
    simp [methodSupportsBody, h]

/-- Witness for C10: "get" and "GET" get the same verdict, and it is the
bodyless one. -/
theorem methodSupportsBody_bodyless_iff_witness :
    methodSupportsBody "get" = methodSupportsBody "GET" ∧
      methodSupportsBody "get" = false :=
  ⟨methodSupportsBody_bodyless_iff.2.1 "get" "GET" (by decide),
    methodSupportsBody_bodyless_iff.2.2.1⟩

/-- C3: `bufferRequestBody` returns null with no body-stream read for GET,
HEAD and OPTIONS requests and for body-capable requests with an absent body;
for a body-capable request with a present body it reads the stream exactly
once and, when the read yields bytes, returns exactly those bytes. -/
theorem bufferRequestBody_read_once (r : Request) :
    (r.method ∈ BODYLESS_METHODS → bufferRequestBody r = (.ok none, 0)) ∧
    (methodSupportsBody r.method = true → r.body = none →
      bufferRequestBody r = (.ok none, 0)) ∧
    (∀ br, methodSupportsBody r.method = true → r.body = some br →
      (bufferRequestBody r).2 = 1 ∧
      ∀ bs, br = .bytes bs → (bufferRequestBody r).1 = .ok (some bs)) := by
  refine ⟨?_, ?_, ?_⟩
  · intro h
    have hm : methodSupportsBody r.method = false := by
      simp only [BODYLESS_METHODS, List.mem_cons,
        List.not_mem_nil, or_false] at h
      rcases h with h | h | h <;> rw [methodSupportsBody.eq_def, h] <;> decide
    simp [bufferRequestBody, hm]
  · intro h hb
    simp [bufferRequestBody, h, hb]
  · intro br h hb
    cases br with
    | bytes bs =>
      refine ⟨by simp [bufferRequestBody, h, hb], ?_⟩
      intro bs2 hbs
      simp only [BodyRead.bytes.injEq] at hbs
      subst hbs
      simp [bufferRequestBody, h, hb]
    | failed c =>
      refine ⟨by simp [bufferRequestBody, h, hb], ?_⟩
      intro bs2 hbs
      exact absurd hbs (by simp)

/-- Witness for C3: a GET request with a (spurious) body stream buffers
nothing and performs no read; a POST request returns its bytes with exactly
one read. -/
theorem bufferRequestBody_read_once_witness :
    bufferRequestBody reqGet = (.ok none, 0) ∧
      (bufferRequestBody reqPost).2 = 1 ∧
      (bufferRequestBody reqPost).1 = .ok (some [1, 2, 3]) := by
  refine ⟨(bufferRequestBody_read_once reqGet).1 (by decide), ?_⟩
  have h := (bufferRequestBody_read_once reqPost).2.2 (.bytes [1, 2, 3])
    (by decide) rfl
  exact ⟨h.1, h.2 [1, 2, 3] rfl⟩

/-- C8: `bufferRequestBody` fails exactly on a failing body-stream read —
when the method is body-capable and the stream's read rejects, it fails with
a `RequestForwardError` carrying that cause; in every other case (bodyless
method, absent body, or a successful read) it succeeds. -/
theorem bufferRequestBody_error_iff (r : Request) :
    (∀ c, methodSupportsBody r.method = true → r.body = some (.failed c) →
      (bufferRequestBody r).1 = .error ⟨.urlOnly r.url.href, c⟩) ∧
    ((methodSupportsBody r.method = false ∨ r.body = none ∨
        (∃ bs, r.body = some (.bytes bs))) →
      ∃ b, (bufferRequestBody r).1 = .ok b) := by
  constructor
  · intro c h hb
    simp [bufferRequestBody, h, hb]
  · rintro (h | h | ⟨bs, h⟩)
    · exact ⟨none, by simp [bufferRequestBody, h]⟩
    · by_cases hm : methodSupportsBody r.method
      · exact ⟨none, by simp [bufferRequestBody, hm, h]⟩
      · exact ⟨none, by simp [bufferRequestBody, hm]⟩
    · by_cases hm : methodSupportsBody r.method
      · exact ⟨some bs, by simp [bufferRequestBody, hm, h]⟩
      · exact ⟨none, by simp [bufferRequestBody, hm]⟩

/-- Witness for C8: a POST request whose body-stream read rejects makes
`bufferRequestBody` fail with a `RequestForwardError` carrying the cause, and
a POST request with a readable body makes it succeed. -/
theorem bufferRequestBody_error_iff_witness :
    (bufferRequestBody reqPostBad).1 =
      .error ⟨.urlOnly "http://lb/api/echo", "read"⟩ ∧
      ∃ b, (bufferRequestBody reqPost).1 = .ok b :=
  ⟨(bufferRequestBody_error_iff reqPostBad).1 "read" (by decide) rfl,
    (bufferRequestBody_error_iff reqPost).2 (Or.inr (Or.inr ⟨[1, 2, 3], rfl⟩))⟩

/-- C9: `forwardRequestSimple` is the composition of `bufferRequestBody` with
`forwardRequest`: its result is the monadic bind of the two, and — buffering
succeeding or failing — it performs exactly the same fetch calls and
body-stream reads as running `bufferRequestBody` once and then
`forwardRequest` on the buffered result. -/
theorem forwardRequestSimple_refines (transport : Transport) (e : Endpoint)
    (r : Request) :
    ((forwardRequestSimple transport e r).1 =
      ((bufferRequestBody r).1.bind fun b => (forwardRequest transport e r b).1)) ∧
    (∀ b, (bufferRequestBody r).1 = .ok b →
      forwardRequestSimple transport e r =
        ((forwardRequest transport e r b).1,
          (forwardRequest transport e r b).2, (bufferRequestBody r).2)) ∧
    (∀ err, (bufferRequestBody r).1 = .error err →
      forwardRequestSimple transport e r =
        (.error err, [], (bufferRequestBody r).2)) := by
  refine ⟨?_, ?_, ?_⟩
  · cases h : (bufferRequestBody r).1 with
    | ok b => simp [forwardRequestSimple, h, Except.bind]
    | error err => simp [forwardRequestSimple, h, Except.bind]
  · intro b h
    simp [forwardRequestSimple, h]
  · intro err h
    simp [forwardRequestSimple, h]

/-- Witness for C9: on a POST request, `forwardRequestSimple` equals the
explicit buffer-then-forward pipeline. -/
theorem forwardRequestSimple_refines_witness :
    forwardRequestSimple okTransport epA reqPost =
      ((forwardRequest okTransport epA reqPost (some [1, 2, 3])).1,
        (forwardRequest okTransport epA reqPost (some [1, 2, 3])).2,
        (bufferRequestBody reqPost).2) :=
  (forwardRequestSimple_refines okTransport epA reqPost).2.1
    (some [1, 2, 3]) (by decide)
